import Mathlib

/-!
Verification development for the rocket-skates ACME reference implementation.
Each definition is a shallow embedding of the corresponding JavaScript source
(file and function named in the doc comments).  Machine arithmetic is modelled
with Nat/Int; external collaborators (HTTP, DNS, JOSE crypto, X.509 parsing)
are abstracted as explicit parameters or pre-parsed data, as the spec scopes
them out of the engine.
-/

namespace RocketSkates

/-- Resource status values used across the data model
(lib/server/acme-server.js and the challenge modules). -/
inductive Status where
  | pending
  | valid
  | invalid
  | deactivated
  | good
deriving DecidableEq, Repr

/-! ## Nonce source (lib/nonce-source.js, class Source) -/

/-- Model of the JS regex test `nonce.match(/^[0-9]+$/)`:
nonempty and every character a decimal digit. -/
def isAllDigits (s : String) : Bool :=
  !s.data.isEmpty && s.data.all Char.isDigit

/-- Decimal value of a digit list, as computed by `parseInt` on an
all-digit string (most significant digit first). -/
def digitsToNat (l : List Char) : Nat :=
  l.foldl (fun a c => 10 * a + (c.toNat - 48)) 0

/-- `parseInt(nonce)` for an all-digit string. -/
def jsParseDigits (s : String) : Nat :=
  digitsToNat s.data

/-- State of nonce-source.js `Source`: fields `min`, `counter`, `used`. -/
structure Source where
  min : Nat
  counter : Nat
  used : List Nat
deriving DecidableEq, Repr

/-- nonce-source.js constructor: `min = counter = start`, and `used` is a
buffer of `bufferSize` copies of `start`. -/
def Source.init (start bufferSize : Nat) : Source :=
  { min := start, counter := start, used := List.replicate bufferSize start }

/-- nonce-source.js `get()`: increment the counter and hand out its decimal
string. -/
def Source.get (src : Source) : String × Source :=
  (toString (src.counter + 1), { src with counter := src.counter + 1 })

/-- nonce-source.js `use(nonce)`: reject unless the string is all digits,
`min < value <= counter`, and `value` is not in the used buffer; on accept,
shift the oldest used value into `min` and push `value`.
The `[]` branch is unreachable: the constructor always fills the buffer
(`bufferSize || DEFAULT_BUFFER_SIZE` is positive) and `use` keeps its length. -/
def Source.use (src : Source) (nonce : String) : Bool × Source :=
  if isAllDigits nonce = false then
    (false, src)
  else
    let value := jsParseDigits nonce
    if value ≤ src.min ∨ src.counter < value ∨ value ∈ src.used then
      (false, src)
    else
      match src.used with
      | [] => (false, src)
      | m :: rest => (true, { min := m, counter := src.counter, used := rest ++ [value] })

/-- Apply `get` a number of times, keeping only the state (models a server
handing out several nonces). -/
def Source.getN (src : Source) (n : Nat) : Source :=
  match n with
  | 0 => src
  | n + 1 => (src.get).2.getN n

/-- Run `use` on a list of nonce strings in order, returning the list of
acceptance results. -/
def Source.useAll (src : Source) : List String → List Bool
  | [] => []
  | s :: rest =>
    let r := src.use s
    r.1 :: r.2.useAll rest

/-! ## Server data model (lib/server/acme-server.js) -/

/-- Wire view of one challenge of an Authorization (the entries of
`authz.challenges` produced by `Authorization.update`). -/
structure Chal where
  status : Status
deriving DecidableEq, Repr

/-- One entry of `Application.requirements`: a tagged
`{type, status, url}` record (`Authorization.asRequirement`). -/
structure Requirement where
  rtype : String
  status : Status
  url : String
deriving DecidableEq, Repr

/-- An Application record (class Application): `status` starts `pending`,
`certificate` is set by `issueIfReady`. -/
structure App where
  id : String
  regID : String
  status : Status
  requirements : List Requirement
  certificate : Option String
deriving DecidableEq, Repr

/-- Pre-parsed view of a DER certificate: the byte string plus the two facts
the external PKI adapter extracts from it (`pki.certNames` and
`pki.certKeyThumbprint`). -/
structure DERCert where
  bytes : List Nat
  names : List String
  spkiThumb : String
deriving DecidableEq, Repr

/-- A Certificate record (class Certificate) with the revocation flags set by
`revokeCert`. -/
structure Cert where
  id : String
  regID : String
  url : String
  der : DERCert
  revoked : Bool
  revocationReason : Int
deriving DecidableEq, Repr

/-- A Registration record (class Registration): identified by the key
thumbprint, carrying the account JWK (modelled as a string). -/
structure Reg where
  id : String
  thumbprint : String
  key : String
  url : String
deriving DecidableEq, Repr

/-- An Authorization record (class Authorization); `expires` is a millisecond
timestamp and `challenges` the wire view recomputed by `update`. -/
structure Authz where
  id : String
  regID : String
  url : String
  identifier : String
  status : Status
  expires : Int
  challenges : List Chal
deriving DecidableEq, Repr

/-- The in-memory store (class DB) together with the URL base and a fresh-id
supply standing in for `uuid.v4()`. -/
structure ServerDB where
  baseURL : String
  regs : List Reg
  authzs : List Authz
  apps : List App
  certs : List Cert
  fresh : Nat
deriving DecidableEq, Repr

/-- `ACMEServer.makeURL`: `baseURL/type/id`. -/
def makeURL (baseURL ty id : String) : String :=
  baseURL ++ "/" ++ ty ++ "/" ++ id

/-- `DB.regByThumbprint`: first Registration whose `thumbprint` field equals
the argument. -/
def ServerDB.regByThumbprint (db : ServerDB) (thumbprint : String) : Option Reg :=
  db.regs.find? (fun r => r.thumbprint == thumbprint)

/-- `DB.certByValue`: first Certificate whose DER bytes equal the submitted
(base64url-decoded) bytes. -/
def ServerDB.certByValue (db : ServerDB) (der : List Nat) : Option Cert :=
  db.certs.find? (fun c => c.der.bytes == der)

/-- `DB.authorizedFor(regID, names)`: every name has some Authorization whose
`regID` field equals the first argument.  (The statuses of the
authorizations are not consulted.) -/
def ServerDB.authorizedFor (db : ServerDB) (regID : String) (names : List String) : Bool :=
  names.all (fun n => db.authzs.any (fun a => a.regID == regID && a.identifier == n))

/-! ## Application state machine (Application.issueIfReady, DB.updateAppsFor) -/

/-- `Application.issueIfReady`, with the CA promise resolved atomically (the
spec keeps issuance atomic with the status flip): when every requirement has
status `valid`, set `status = valid`, issue a certificate via the CA handle
`issue`, store it, and record its URL; otherwise leave everything unchanged.
`certs`/`fresh` thread the store state touched by `db.put(cert)`. -/
def App.issueIfReady (issue : App → DERCert) (baseURL : String) (a : App)
    (certs : List Cert) (fresh : Nat) : App × List Cert × Nat :=
  if a.requirements.all (fun req => req.status == Status.valid) then
    let cert : Cert :=
      { id := toString fresh, regID := a.regID,
        url := makeURL baseURL "cert" (toString fresh),
        der := issue a, revoked := false, revocationReason := 0 }
    ({ a with status := Status.valid, certificate := some cert.url },
     certs ++ [cert], fresh + 1)
  else
    (a, certs, fresh)

/-- The certificate record the issuing branch of `issueIfReady` stores
(`new Certificate(server, regID, der)` followed by `db.put(cert)`). -/
def freshCert (issue : App → DERCert) (bu : String) (a : App) (fresh : Nat) : Cert :=
  Cert.mk (toString fresh) a.regID (makeURL bu "cert" (toString fresh)) (issue a) false 0

/-- The updated Application record produced by the issuing branch of
`issueIfReady`. -/
def issuedApp (bu : String) (a : App) (fresh : Nat) : App :=
  { a with status := Status.valid, certificate := some (makeURL bu "cert" (toString fresh)) }

/-- The requirement rewrite in `DB.updateAppsFor`: every `authorization`
requirement whose `url` matches the Authorization gets its status copied. -/
def App.rewriteReqs (az : Authz) (a : App) : App :=
  { a with requirements :=
      a.requirements.map (fun req =>
        if req.rtype == "authorization" && req.url == az.url then
          { req with status := az.status }
        else req) }

/-- Second phase of `DB.updateAppsFor`: run `issueIfReady` on every
Application of the same Registration, threading the certificate store. -/
def issueAppsAux (issue : App → DERCert) (baseURL regID : String) :
    List App → List Cert → Nat → List App × List Cert × Nat
  | [], certs, fresh => ([], certs, fresh)
  | a :: rest, certs, fresh =>
    if a.regID == regID then
      let step := App.issueIfReady issue baseURL a certs fresh
      let tail := issueAppsAux issue baseURL regID rest step.2.1 step.2.2
      (step.1 :: tail.1, tail.2)
    else
      let tail := issueAppsAux issue baseURL regID rest certs fresh
      (a :: tail.1, tail.2)

/-- `DB.updateAppsFor(authz)`: rewrite the matching requirement of every
Application of the same Registration, then `issueIfReady` each of them. -/
def ServerDB.updateAppsFor (issue : App → DERCert) (db : ServerDB) (az : Authz) : ServerDB :=
  let apps1 := db.apps.map (fun a => if a.regID == az.regID then App.rewriteReqs az a else a)
  let issued := issueAppsAux issue db.baseURL az.regID apps1 db.certs db.fresh
  { db with apps := issued.1, certs := issued.2.1, fresh := issued.2.2 }

/-! ## Authorization state machine (class Authorization, ACMEServer.updateAuthz) -/

/-- `Authorization.update()`: recompute `challenges` (statuses unchanged by
the recomputation itself) and then the Authorization status: expired or all
challenges invalid gives `invalid`, else any valid challenge gives `valid`,
else the status is left as it is.  The JS
`map(...).reduce((x, y) => x && y)` is a seedless fold; the server
constructor guarantees at least one challenge type, so the list is nonempty
and the fold below agrees with it. -/
def Authz.update (now : Int) (a : Authz) : Authz :=
  let validCount := (a.challenges.filter (fun c => c.status == Status.valid)).length
  let allInvalid := (a.challenges.map (fun c => c.status == Status.invalid)).foldr (· && ·) true
  if a.expires < now || allInvalid then
    { a with status := Status.invalid }
  else if 0 < validCount then
    { a with status := Status.valid }
  else
    a

/-- The deactivation branch of `ACMEServer.updateAuthz`
(payload `status = deactivated`): assign `deactivated`. -/
def Authz.deactivate (a : Authz) : Authz :=
  { a with status := Status.deactivated }

/-- Outcome of a server-side challenge `update(response)` probe, applied to
challenge `i` of the Authorization (the challenge modules only ever move a
challenge to `valid` or `invalid`). -/
def Authz.setChal (a : Authz) (i : Nat) (st : Status) : Authz :=
  { a with challenges := a.challenges.set i { status := st } }

/-- The operations `ACMEServer` performs on one Authorization record:
a marshal (every GET/POST response calls `marshal()`, which calls
`update()`), a deactivation POST (assign then marshal), and a challenge
update POST (refused unless the status is `pending`; otherwise the challenge
result is recorded, `update()` runs, and the response is sent). -/
inductive AuthzOp where
  | marshal (now : Int)
  | deactivateReq (now : Int)
  | challengeUpd (i : Nat) (st : Status) (now : Int)
deriving DecidableEq, Repr

/-- Apply one server operation to an Authorization, following
`ACMEServer.updateAuthz` and `Authorization.marshal`. -/
def Authz.applyOp (a : Authz) : AuthzOp → Authz
  | AuthzOp.marshal now => a.update now
  | AuthzOp.deactivateReq now => (a.deactivate).update now
  | AuthzOp.challengeUpd i st now =>
    if a.status == Status.pending then (a.setChal i st).update now else a

/-- Apply a sequence of server operations in order. -/
def Authz.applyOps (a : Authz) : List AuthzOp → Authz
  | [] => a
  | op :: rest => (a.applyOp op).applyOps rest

/-! ## Challenge fetch and update-by-index (ACMEServer.fetchChallenge /
updateAuthz), and the JS integer-prefix parse they rely on -/

/-- Model of base-10 `parseInt` on a path segment: optional sign, then the
longest leading run of decimal digits; `none` models `NaN`.  (Leading
whitespace and the hexadecimal `0x` prefix do not occur in the URLs the
handlers see and are not modelled.) -/
def jsParseInt (s : String) : Option Int :=
  let core : List Char → Option Nat := fun l =>
    let ds := l.takeWhile Char.isDigit
    if ds.isEmpty then none else some (digitsToNat ds)
  match s.data with
  | '-' :: rest => (core rest).map (fun n => -(n : Int))
  | '+' :: rest => (core rest).map (fun n => (n : Int))
  | l => (core l).map (fun n => (n : Int))

/-- First Authorization in the store with the given id
(`db.get('authz', id)`). -/
def ServerDB.getAuthz (db : ServerDB) (id : String) : Option Authz :=
  db.authzs.find? (fun a => a.id == id)

/-- Responses of the two challenge-by-index handlers, restricted to the parts
the handlers compute from the store. -/
inductive ChalResp where
  | ok (c : Chal)
  | notFound
  | unauthorized
  | forbidden
deriving DecidableEq, Repr

/-- `ACMEServer.fetchChallenge` (GET `/authz/:id/:index`): 404 unless the
Authorization exists, `parseInt(index)` is a number, and `index in
authz.challenges`; otherwise 200 with the selected challenge.  (The handler
also refreshes the Authorization via `update()`; the challenge count is
unchanged by that, so the selected entry is taken from the refreshed list.) -/
def ServerDB.fetchChallenge (db : ServerDB) (now : Int) (id indexStr : String) : ChalResp :=
  match db.getAuthz id with
  | none => ChalResp.notFound
  | some az =>
    match jsParseInt indexStr with
    | none => ChalResp.notFound
    | some i =>
      if h : 0 ≤ i ∧ i.toNat < az.challenges.length then
        ChalResp.ok ((az.update now).challenges.get
          ⟨i.toNat, by
            have h2 := h.2
            unfold Authz.update
            dsimp only
            split
            · exact h2
            · split
              · exact h2
              · exact h2⟩)
      else ChalResp.notFound

/-- The challenge branch of `ACMEServer.updateAuthz`
(POST `/authz/:id/:index`): 404 for an unknown Authorization; 401 unless the
account key owns it; 403 once it is no longer `pending`; then the same index
check as the GET handler, and on success the updated challenge is returned.
`st` is the outcome the challenge module assigns for the submitted
response. -/
def ServerDB.updateAuthzChallenge (db : ServerDB) (now : Int)
    (submitterThumb id indexStr : String) (st : Status) : ChalResp :=
  match db.getAuthz id with
  | none => ChalResp.notFound
  | some az =>
    match db.regByThumbprint submitterThumb with
    | none => ChalResp.unauthorized
    | some reg =>
      if reg.id != az.regID then ChalResp.unauthorized
      else if az.status != Status.pending then ChalResp.forbidden
      else
        match jsParseInt indexStr with
        | none => ChalResp.notFound
        | some i =>
          if h : 0 ≤ i ∧ i.toNat < az.challenges.length then
            ChalResp.ok (((az.setChal i.toNat st).update now).challenges.get
              ⟨i.toNat, by
                have h2 := h.2
                unfold Authz.update Authz.setChal
                dsimp only
                split
                · simpa using h2
                · split
                  · simpa using h2
                  · simpa using h2⟩)
          else ChalResp.notFound

/-! ## Key change (ACMEServer.changeKey) -/

/-- Result of `jose.verify` on the inner JWS of a key-change request: the
thumbprint of the key that signed it, the protected `url`, and the three
payload fields the handler inspects. -/
structure InnerJWS where
  keyThumb : String
  headerUrl : String
  oldKey : String
  newKey : String
  account : String
deriving DecidableEq, Repr

/-- `ACMEServer.changeKey`: verify the payload as an inner JWS (`none` models
a rejected verification, for which the handler installs no catch and sends no
response), look the signing key up by thumbprint, check the four equalities,
and on success assign the outer account key to the Registration `key` field.
The numeric result is the HTTP status (`none` when no response is sent); note
that only `key` is reassigned, the `thumbprint` field keeps its value. -/
def ServerDB.changeKey (db : ServerDB) (outerUrl outerKey outerThumb : String)
    (inner : Option InnerJWS) : ServerDB × Option Nat :=
  match inner with
  | none => (db, none)
  | some i =>
    match db.regByThumbprint i.keyThumb with
    | none => (db, some 403)
    | some reg =>
      let urlMatch := i.headerUrl == outerUrl
      let oldKeyMatch := i.oldKey == i.keyThumb
      let newKeyMatch := i.newKey == outerThumb
      let regMatch := i.account == reg.url
      if !urlMatch || !oldKeyMatch || !newKeyMatch || !regMatch then
        (db, some 403)
      else
        ({ db with regs := db.regs.map (fun r =>
             if r.id == reg.id then { r with key := outerKey } else r) },
         some 200)

/-- The account-key check of `ACMEServer.updateReg` (and every other
authenticated handler): the submitted key thumbprint must equal the stored
Registration `thumbprint` field. -/
def ServerDB.updateRegAuthorized (db : ServerDB) (id submitterThumb : String) : Bool :=
  match db.regs.find? (fun r => r.id == id) with
  | none => false
  | some reg => submitterThumb == reg.thumbprint

/-! ## Certificate revocation (ACMEServer.revokeCert) -/

/-- `ACMEServer.revokeCert`: find the Certificate by DER bytes; authorize the
submitter as owning Registration, via `db.authorizedFor` over the SAN names
(note the handler passes the submitter thumbprint, not a Registration id),
or by the subject-public-key thumbprint; on success set the revocation flags,
with `parseInt(payload.reason)` falling back to `0` on `NaN`
(`reason` here is that parse result).  Returns the new store and status. -/
def ServerDB.revokeCert (db : ServerDB) (submitterThumb : String)
    (certBytes : List Nat) (reason : Option Int) : ServerDB × Nat :=
  match db.certByValue certBytes with
  | none => (db, 403)
  | some cert =>
    let owner := match db.regByThumbprint submitterThumb with
      | some reg => reg.id == cert.regID
      | none => false
    let authorized := db.authorizedFor submitterThumb cert.der.names
    let keyOk := submitterThumb == cert.der.spkiThumb
    if owner || authorized || keyOk then
      let r := match reason with
        | none => (0 : Int)
        | some n => n
      ({ db with certs := db.certs.map (fun c =>
           if c.id == cert.id then { c with revoked := true, revocationReason := r } else c) },
       200)
    else
      (db, 403)

/-! ## HTTP-01 challenge construction (lib/challenges/http-challenge.js,
lib/server/acme-server.js Authorization constructor) -/

/-- JS string coercion used when an `undefined` value is concatenated into a
template/`+` expression. -/
def jsCoerce : Option String → String
  | some s => s
  | none => "undefined"

/-- The fields of an `HTTP01Challenge` set by its constructor.
`keyAuthPriv` is the cached `_keyAuthorization`. -/
structure HTTP01Chal where
  status : Status
  name : Option String
  token : String
  keyAuthPriv : String
deriving DecidableEq, Repr

/-- `HTTP01Challenge` constructor `(name, thumbprint)` with the freshly
generated token passed in (`crypto.randomBytes(32)` base64url-encoded is
external randomness): `_keyAuthorization = token + "." + thumbprint`.
Arguments are `Option` so that the call sites that pass nothing are
representable. -/
def HTTP01Chal.construct (name thumbprint : Option String) (token : String) : HTTP01Chal :=
  { status := Status.pending, name := name, token := token,
    keyAuthPriv := token ++ "." ++ jsCoerce thumbprint }

/-- The challenge-object construction in the `Authorization` constructor
(acme-server.js line 140): `new challengeType()` with no arguments. -/
def Authorization.mkChallengeObj (token : String) : HTTP01Chal :=
  HTTP01Chal.construct none none token

/-- Base64url alphabet (RFC 4648, URL-safe, no padding). -/
def isB64UrlChar (c : Char) : Bool :=
  c.isAlphanum || c == '-' || c == '_'

/-- Base64url encoding without padding of a byte list, as produced by
`toString('base64')` followed by the three replacements in the challenge
constructors. -/
def b64urlChar (n : Nat) : Char :=
  if n < 26 then Char.ofNat (65 + n)
  else if n < 52 then Char.ofNat (97 + (n - 26))
  else if n < 62 then Char.ofNat (48 + (n - 52))
  else if n = 62 then '-'
  else '_'

/-- Encode bytes to base64url without padding. -/
def b64urlNoPad : List Nat → List Char
  | [] => []
  | [b1] =>
    [b64urlChar ((b1 / 4) % 64), b64urlChar ((b1 % 4) * 16)]
  | [b1, b2] =>
    [b64urlChar ((b1 / 4) % 64), b64urlChar (((b1 % 4) * 16 + b2 / 16) % 64),
     b64urlChar ((b2 % 16) * 4)]
  | b1 :: b2 :: b3 :: rest =>
    b64urlChar ((b1 / 4) % 64) :: b64urlChar (((b1 % 4) * 16 + b2 / 16) % 64) ::
    b64urlChar (((b2 % 16) * 4 + b3 / 64) % 64) :: b64urlChar (b3 % 64) ::
    b64urlNoPad rest

/-! ## Client transport POST retry (lib/client/transport-client.js) -/

/-- The problem type the client retries on. -/
def rateLimitedURN : String := "urn:ietf:params:acme:error:rateLimited"

/-- The `Retry-After` header as the code reads it: a string whose `parseInt`
yields an integer, a string that only parses as a `Date` (millisecond
timestamp), or anything else (including an absent header), which both
parses fail on. -/
inductive RAHeader where
  | intSeconds (n : Int)
  | httpDate (t : Int)
  | invalid
deriving DecidableEq, Repr

/-- `retryAfterDelay(retryAfter)`: integer seconds become milliseconds;
otherwise a parsed date strictly in the future yields the difference to
`now`; everything else yields 0. -/
def retryAfterDelay (now : Int) : RAHeader → Int
  | RAHeader.intSeconds n => 1000 * n
  | RAHeader.httpDate t => if 0 < t - now then t - now else 0
  | RAHeader.invalid => 0

/-- One settled HTTP exchange as `request-promise` reports it to
`TransportClient.post`: a 2xx resolution, a rejection carrying the response
(status code, whether the content type is a JSON/problem one, the body
`type`, and the `Retry-After` header), or a rejection with no response
attached (network failure). -/
inductive WireEvent where
  | resolved
  | rejected (statusCode : Nat) (ctJson : Bool) (bodyType : String) (retryAfter : RAHeader)
  | netFailure
deriving DecidableEq, Repr

/-- `isError(response) && isProblem(response) && response.body.type ===
RATE_LIMITED` for a rejection event. -/
def WireEvent.isRateLimited : WireEvent → Bool
  | WireEvent.rejected sc ctJson bodyType _ =>
    (sc / 100 == 4 || sc / 100 == 5) && ctJson && (bodyType == rateLimitedURN)
  | _ => false

/-- Retry-After header of a rejection event (`invalid` elsewhere). -/
def WireEvent.ra : WireEvent → RAHeader
  | WireEvent.rejected _ _ _ r => r
  | _ => RAHeader.invalid

/-- What `post` surfaces for a non-retried event: `some true` when the
promise resolved, `some false` when the error is rethrown to the caller. -/
def WireEvent.outcome : WireEvent → Option Bool
  | WireEvent.resolved => some true
  | _ => some false

/-- Trace of one `TransportClient.post` call: how many HTTP requests were
made, the sleeps taken between them, and the surfaced outcome (`none` when
the supplied schedule ran out while the code was still retrying). -/
structure PostTrace where
  attempts : Nat
  sleeps : List Int
  outcome : Option Bool
deriving DecidableEq, Repr

/-- `TransportClient.post` run against a schedule of wire events, one per
HTTP request it makes.  A resolution returns; a rejection without response
rethrows; a rate-limited problem rejection sleeps
`retryAfterDelay(...) || DEFAULT_POLL_DELAY` (the JS `||` maps a zero delay
to 500) and recursively re-posts; any other rejection rethrows. -/
def TransportClient.postRun (now : Int) : List WireEvent → PostTrace
  | [] => { attempts := 0, sleeps := [], outcome := none }
  | e :: rest =>
    if e.isRateLimited then
      let d0 := retryAfterDelay now e.ra
      let d := if d0 == 0 then 500 else d0
      let t := TransportClient.postRun now rest
      { attempts := t.attempts + 1, sleeps := d :: t.sleeps, outcome := t.outcome }
    else
      { attempts := 1, sleeps := [], outcome := e.outcome }

/-! ## Client key roll-over (lib/client/acme-client.js, ACMEClient.changeKey) -/

/-- The ACMEClient state the key-change path touches: the transport account
key (`this.client.accountKey`, used to sign every POST), the field
`this.accountKey` on the ACMEClient itself (written only by the `catch`
handler of `changeKey` and read nowhere), the stored registration URL, and
the cached directory `key-change` entry. -/
structure ClientState where
  clientAccountKey : String
  selfAccountKey : Option String
  registrationURL : Option String
  directoryKeyChange : Option String
deriving DecidableEq, Repr

/-- `ACMEClient.changeKey(newKey)`: reject before touching anything when no
registration or no new key; otherwise assign `this.client.accountKey =
newKey`, then fail on a missing directory entry or a rejected POST
(`postSucceeds` summarises the signing and POST steps).  The `catch` handler
performs `this.accountKey = oldKey` and rethrows.  Returns the final state
and whether the promise resolved. -/
def ACMEClient.changeKey (st : ClientState) (newKey : Option String)
    (postSucceeds : Bool) : ClientState × Bool :=
  match st.registrationURL with
  | none => (st, false)
  | some _ =>
    match newKey with
    | none => (st, false)
    | some nk =>
      let oldKey := st.clientAccountKey
      let st1 := { st with clientAccountKey := nk }
      match st.directoryKeyChange with
      | none => ({ st1 with selfAccountKey := some oldKey }, false)
      | some _ =>
        if postSucceeds then (st1, true)
        else ({ st1 with selfAccountKey := some oldKey }, false)

/-! ## Theorems -/

/-- Helper: `use` rejects a string that is not all digits, leaving the state
unchanged. -/
theorem use_not_digits (src : Source) (s : String) (h : isAllDigits s = false) :
    src.use s = (false, src) := by
  simp [Source.use, h]

/-- Helper: `use` rejects a digit string whose value is at most `min`, above
`counter`, or in the used buffer, leaving the state unchanged. -/
theorem use_window_reject (src : Source) (s : String) (hd : isAllDigits s = true)
    (hc : jsParseDigits s ≤ src.min ∨ src.counter < jsParseDigits s ∨
      jsParseDigits s ∈ src.used) :
    src.use s = (false, src) := by
  simp only [Source.use, hd]
  rw [if_neg (by simp), if_pos hc]

/-- Helper: the accepting branch of `use`: shift the oldest used value into
`min` and append the accepted value. -/
theorem use_accept (mn ct m : Nat) (rest : List Nat) (s : String) (hd : isAllDigits s = true)
    (h1 : mn < jsParseDigits s) (h2 : jsParseDigits s ≤ ct)
    (h3 : jsParseDigits s ∉ (m :: rest : List Nat)) :
    Source.use ⟨mn, ct, m :: rest⟩ s =
      (true, ⟨m, ct, rest ++ [jsParseDigits s]⟩) := by
  have hc : ¬((jsParseDigits s ≤ (⟨mn, ct, m :: rest⟩ : Source).min) ∨
      ((⟨mn, ct, m :: rest⟩ : Source).counter < jsParseDigits s) ∨
      (jsParseDigits s ∈ (⟨mn, ct, m :: rest⟩ : Source).used)) := by
    push_neg
    refine ⟨?_, ?_, h3⟩
    · dsimp only
      omega
    · dsimp only
      omega
  simp only [Source.use, hd]
  rw [if_neg (by simp), if_neg hc]

/-- C1 (amended): `use(s)` accepts exactly when `s` is all digits,
`min < value <= counter`, and `value` is not in the used buffer; on accept
the oldest used value is removed and becomes the new `min`, the value is
appended to the buffer, and an immediately repeated `use` of the same string
is rejected; any stale string (value at most `min`) is rejected.  (The
original claim that every later `use` of the same string is rejected is
refuted by `nonce_replay_after_eviction`.) -/
theorem nonce_use_spec (src : Source) (s : String) (hne : src.used ≠ []) :
    ((src.use s).1 = true ↔
      (isAllDigits s = true ∧ src.min < jsParseDigits s ∧ jsParseDigits s ≤ src.counter
        ∧ jsParseDigits s ∉ src.used))
    ∧ ((src.use s).1 = true →
        (src.use s).2.min = src.used.head hne
        ∧ (src.use s).2.used = src.used.tail ++ [jsParseDigits s]
        ∧ (src.use s).2.counter = src.counter
        ∧ ((src.use s).2.use s).1 = false)
    ∧ (jsParseDigits s ≤ src.min → (src.use s).1 = false) := by
  rcases src with ⟨mn, ct, us⟩
  rcases us with _ | ⟨m, rest⟩
  · exact absurd rfl hne
  · by_cases hd : isAllDigits s = true
    · by_cases hc : jsParseDigits s ≤ mn ∨ ct < jsParseDigits s ∨
        jsParseDigits s ∈ (m :: rest : List Nat)
      · rw [use_window_reject _ _ hd hc]
        refine ⟨?_, ?_, fun _ => rfl⟩
        · simp only [Prod.fst]
          constructor
          · intro h
            exact absurd h (by simp)
          · rintro ⟨-, h1, h2, h3⟩
            rcases hc with hc | hc | hc
            · omega
            · omega
            · exact absurd hc h3
        · intro h
          exact absurd h (by simp)
      · push_neg at hc
        obtain ⟨h1, h2, h3⟩ := hc
        rw [use_accept mn ct m rest s hd h1 h2 h3]
        refine ⟨?_, ?_, ?_⟩
        · exact ⟨fun _ => ⟨hd, h1, h2, h3⟩, fun _ => rfl⟩
        · intro _
          refine ⟨rfl, rfl, rfl, ?_⟩
          have hmem : jsParseDigits s ∈ rest ++ [jsParseDigits s] := by simp
          rw [use_window_reject ⟨m, ct, rest ++ [jsParseDigits s]⟩ s hd
            (Or.inr (Or.inr hmem))]
        · intro hle
          exfalso
          dsimp only at hle
          omega
    · have hd' : isAllDigits s = false := by
        cases h : isAllDigits s
        · rfl
        · exact absurd h hd
      rw [use_not_digits _ _ hd']
      refine ⟨?_, ?_, fun _ => rfl⟩
      · constructor
        · intro h
          exact absurd h (by simp)
        · rintro ⟨h, -⟩
          exact absurd h hd
      · intro h
        exact absurd h (by simp)

/-- C1 witness: a concrete accepted nonce, via `nonce_use_spec`. -/
theorem nonce_use_spec_witness :
    ((⟨10, 12, [10, 10]⟩ : Source).use "11").1 = true :=
  (nonce_use_spec ⟨10, 12, [10, 10]⟩ "11" (by simp)).1.mpr (by decide)

/-- C1 counterexample: starting from `Source.init 10 2` after four `get`
calls, the nonce "13" is accepted, then "11", "12" and "14" are accepted
out of order, evicting 13 from the used buffer while dropping `min` to 11,
and then "13" is accepted a second time.  This refutes the claim that a
later `use` of an accepted string always returns false. -/
theorem nonce_replay_after_eviction :
    ((Source.init 10 2).getN 4).useAll ["13", "11", "12", "14", "13"] =
      [true, true, true, true, true] := by decide


/-- Helper: `issueIfReady` either issues (all requirements valid: status set
to `valid`, a fresh Certificate appended to the store, its URL recorded) or
is the identity. -/
theorem issueIfReady_cases (issue : App → DERCert) (bu : String) (a : App)
    (certs : List Cert) (fresh : Nat) :
    (a.requirements.all (fun req => req.status == Status.valid) = true ∧
      App.issueIfReady issue bu a certs fresh =
        (issuedApp bu a fresh, certs ++ [freshCert issue bu a fresh], fresh + 1))
    ∨ (a.requirements.all (fun req => req.status == Status.valid) = false ∧
      App.issueIfReady issue bu a certs fresh = (a, certs, fresh)) := by
  by_cases h : a.requirements.all (fun req => req.status == Status.valid) = true
  · refine Or.inl ⟨h, ?_⟩
    simp only [App.issueIfReady, issuedApp, freshCert]
    rw [if_pos h]
  · refine Or.inr ⟨by simpa using h, ?_⟩
    simp only [App.issueIfReady]
    rw [if_neg h]

/-- Helper: `issueIfReady` only appends to the certificate store. -/
theorem issueIfReady_certs_mono (issue : App → DERCert) (bu : String) (a : App)
    (certs : List Cert) (fresh : Nat) :
    ∃ ext, (App.issueIfReady issue bu a certs fresh).2.1 = certs ++ ext := by
  rcases issueIfReady_cases issue bu a certs fresh with ⟨-, h⟩ | ⟨-, h⟩
  · exact ⟨_, by rw [h]⟩
  · exact ⟨[], by rw [h]; simp⟩

/-- Helper: the issuing pass of `updateAppsFor` only appends to the
certificate store. -/
theorem issueAppsAux_certs_mono (issue : App → DERCert) (bu rid : String) :
    ∀ (l : List App) (certs : List Cert) (fresh : Nat),
      ∃ ext, (issueAppsAux issue bu rid l certs fresh).2.1 = certs ++ ext := by
  intro l
  induction l with
  | nil =>
    intro certs fresh
    exact ⟨[], by simp [issueAppsAux]⟩
  | cons a rest ih =>
    intro certs fresh
    by_cases h : (a.regID == rid) = true
    · obtain ⟨e1, he1⟩ := issueIfReady_certs_mono issue bu a certs fresh
      obtain ⟨e2, he2⟩ := ih (App.issueIfReady issue bu a certs fresh).2.1
        (App.issueIfReady issue bu a certs fresh).2.2
      refine ⟨e1 ++ e2, ?_⟩
      simp only [issueAppsAux]
      rw [if_pos h]
      dsimp only
      rw [he2, he1, List.append_assoc]
    · obtain ⟨e2, he2⟩ := ih certs fresh
      refine ⟨e2, ?_⟩
      simp only [issueAppsAux]
      rw [if_neg h]
      exact he2

/-- Helper: positional issuance-gate property through the issuing pass of
`updateAppsFor`. -/
theorem issueAppsAux_spec (issue : App → DERCert) (bu rid : String) :
    ∀ (l : List App) (certs : List Cert) (fresh : Nat) (i : Nat) (a a' : App),
      l.get? i = some a →
      (issueAppsAux issue bu rid l certs fresh).1.get? i = some a' →
      a'.status = Status.valid →
      a.status ≠ Status.valid →
      a'.requirements.all (fun req => req.status == Status.valid) = true ∧
      ∃ u, a'.certificate = some u ∧
        ∃ c ∈ (issueAppsAux issue bu rid l certs fresh).2.1, c.url = u := by
  intro l
  induction l with
  | nil =>
    intro certs fresh i a a' h
    simp at h
  | cons a0 rest ih =>
    intro certs fresh i a a' hget hget' hval hnotval
    by_cases h : (a0.regID == rid) = true
    · simp only [issueAppsAux] at hget' ⊢
      rw [if_pos h] at hget' ⊢
      cases i with
      | zero =>
        simp only [List.get?] at hget hget'
        obtain rfl : a0 = a := by injection hget
        obtain rfl : (App.issueIfReady issue bu a0 certs fresh).1 = a' := by
          injection hget'
        rcases issueIfReady_cases issue bu a0 certs fresh with ⟨hall, heq⟩ | ⟨hall, heq⟩
        · rw [heq]
          dsimp only [issuedApp]
          refine ⟨hall, makeURL bu "cert" (toString fresh), rfl, ?_⟩
          obtain ⟨ext, hext⟩ := issueAppsAux_certs_mono issue bu rid rest
            (App.issueIfReady issue bu a0 certs fresh).2.1
            (App.issueIfReady issue bu a0 certs fresh).2.2
          refine ⟨freshCert issue bu a0 fresh, ?_, rfl⟩
          rw [heq] at hext
          dsimp only at hext
          rw [hext]
          simp
        · exfalso
          rw [heq] at hval
          exact hnotval hval
      | succ i =>
        simp only [List.get?] at hget hget'
        obtain ⟨hall, u, hu, c, hc, hurl⟩ := ih _ _ i a a' hget hget' hval hnotval
        exact ⟨hall, u, hu, c, hc, hurl⟩
    · simp only [issueAppsAux] at hget' ⊢
      rw [if_neg h] at hget' ⊢
      cases i with
      | zero =>
        simp only [List.get?] at hget hget'
        obtain rfl : a0 = a := by injection hget
        obtain rfl : a0 = a' := by injection hget'
        exact absurd hval hnotval
      | succ i =>
        simp only [List.get?] at hget hget'
        obtain ⟨hall, u, hu, c, hc, hurl⟩ := ih certs fresh i a a' hget hget' hval hnotval
        exact ⟨hall, u, hu, c, hc, hurl⟩

/-- C2: an Application attains status `valid` (under `issueIfReady`, and
under `updateAppsFor`, the only transitions to `valid`) only when, at that
transition, every requirement has status `valid`, and the resulting record
carries `certificate = u` for a Certificate with URL `u` stored in the
server database. -/
theorem application_issuance_gate :
    (∀ (issue : App → DERCert) (bu : String) (a : App) (certs : List Cert) (fresh : Nat),
      (App.issueIfReady issue bu a certs fresh).1.status = Status.valid →
      a.status ≠ Status.valid →
      (App.issueIfReady issue bu a certs fresh).1.requirements.all
        (fun req => req.status == Status.valid) = true ∧
      ∃ u, (App.issueIfReady issue bu a certs fresh).1.certificate = some u ∧
        ∃ c ∈ (App.issueIfReady issue bu a certs fresh).2.1, c.url = u)
    ∧ (∀ (issue : App → DERCert) (db : ServerDB) (az : Authz) (i : Nat) (a a' : App),
      db.apps.get? i = some a →
      (ServerDB.updateAppsFor issue db az).apps.get? i = some a' →
      a'.status = Status.valid →
      a.status ≠ Status.valid →
      a'.requirements.all (fun req => req.status == Status.valid) = true ∧
      ∃ u, a'.certificate = some u ∧
        ∃ c ∈ (ServerDB.updateAppsFor issue db az).certs, c.url = u) := by
  constructor
  · intro issue bu a certs fresh hval hnot
    rcases issueIfReady_cases issue bu a certs fresh with ⟨hall, heq⟩ | ⟨hall, heq⟩
    · rw [heq]
      dsimp only [issuedApp]
      exact ⟨hall, makeURL bu "cert" (toString fresh), rfl,
        freshCert issue bu a fresh, by simp, rfl⟩
    · rw [heq] at hval
      exact absurd hval hnot
  · intro issue db az i a a' hget hget' hval hnot
    have hget1 : (db.apps.map (fun x =>
        if x.regID == az.regID then App.rewriteReqs az x else x)).get? i =
        some (if a.regID == az.regID then App.rewriteReqs az a else a) := by
      rw [List.get?_map, hget]
      rfl
    have hnot1 : (if a.regID == az.regID then App.rewriteReqs az a else a).status
        ≠ Status.valid := by
      by_cases h : (a.regID == az.regID) = true
      · rw [if_pos h]
        simpa [App.rewriteReqs] using hnot
      · rw [if_neg h]
        exact hnot
    exact issueAppsAux_spec issue db.baseURL az.regID _ db.certs db.fresh i _ a'
      hget1 hget' hval hnot1


/-- Helper: `Authorization.update` never assigns `pending`. -/
theorem update_not_pending (now : Int) (a : Authz) (h : a.status ≠ Status.pending) :
    (Authz.update now a).status ≠ Status.pending := by
  unfold Authz.update
  dsimp only
  split
  · intro hF
    exact Status.noConfusion hF
  · split
    · intro hF
      exact Status.noConfusion hF
    · exact h

/-- Helper: no single server operation moves an Authorization back to
`pending`. -/
theorem applyOp_not_pending (a : Authz) (op : AuthzOp) (h : a.status ≠ Status.pending) :
    (a.applyOp op).status ≠ Status.pending := by
  cases op with
  | marshal now => exact update_not_pending now a h
  | deactivateReq now =>
    refine update_not_pending now a.deactivate ?_
    intro hF
    exact Status.noConfusion hF
  | challengeUpd i st now =>
    simp only [Authz.applyOp]
    rw [if_neg (by simpa using h)]
    exact h

/-- C3 (amended): under any sequence of server operations (marshal,
deactivation request, challenge update), an Authorization that has left
`pending` (in particular one that is `valid`, `invalid` or `deactivated`)
never returns to `pending`.  (The stronger DAG claim, that no edge leaves
`valid`, `invalid` or `deactivated` at all, is refuted by
`authz_deactivated_returns_valid`.) -/
theorem authz_never_pending_again (a : Authz) (ops : List AuthzOp)
    (h : a.status ≠ Status.pending) :
    (a.applyOps ops).status ≠ Status.pending := by
  induction ops generalizing a with
  | nil => exact h
  | cons op rest ih => exact ih (a.applyOp op) (applyOp_not_pending a op h)

/-- C3 witness: a concrete valid Authorization stays away from `pending`
through three operations, via `authz_never_pending_again`. -/
theorem authz_never_pending_again_witness :
    (Authz.applyOps (Authz.mk "z1" "r1" "u" "n" Status.valid 1000 [Chal.mk Status.valid])
      [AuthzOp.marshal 0, AuthzOp.deactivateReq 5,
       AuthzOp.challengeUpd 0 Status.invalid 7]).status ≠ Status.pending :=
  authz_never_pending_again _ _ (by decide)

/-- C3 counterexample: a `valid` Authorization with one valid challenge is
deactivated by the handler, but the `marshal()` the same handler performs to
build the response runs `update()`, which recomputes the status back to
`valid`: the status regresses from `deactivated`, so the transition DAG of
the claim is violated. -/
theorem authz_deactivated_returns_valid :
    ((Authz.mk "z1" "r1" "B/authz/z1" "example.com" Status.valid 1000
        [Chal.mk Status.valid]).applyOp (AuthzOp.deactivateReq 0)).status = Status.valid
    ∧ (Authz.mk "z1" "r1" "B/authz/z1" "example.com" Status.valid 1000
        [Chal.mk Status.valid]).deactivate.status = Status.deactivated := by decide

/-- C4: evaluating `issueIfReady` on an Application that is already
`valid` (all requirements valid, certificate recorded, one Certificate
stored) is not a no-op: a second Certificate is stored (the store grows to
two) and the `certificate` field is repointed to the new URL, so the
returned record differs from the input. -/
theorem issueIfReady_reissues_on_valid_app :
    (App.issueIfReady (fun _ => DERCert.mk [] [] "") "B"
        (App.mk "a1" "r1" Status.valid
          [Requirement.mk "authorization" Status.valid "B/authz/z1"] (some "B/cert/0"))
        [Cert.mk "0" "r1" "B/cert/0" (DERCert.mk [] [] "") false 0] 1).1.certificate
      = some "B/cert/1"
    ∧ (App.issueIfReady (fun _ => DERCert.mk [] [] "") "B"
        (App.mk "a1" "r1" Status.valid
          [Requirement.mk "authorization" Status.valid "B/authz/z1"] (some "B/cert/0"))
        [Cert.mk "0" "r1" "B/cert/0" (DERCert.mk [] [] "") false 0] 1).2.1.length = 2
    ∧ (App.issueIfReady (fun _ => DERCert.mk [] [] "") "B"
        (App.mk "a1" "r1" Status.valid
          [Requirement.mk "authorization" Status.valid "B/authz/z1"] (some "B/cert/0"))
        [Cert.mk "0" "r1" "B/cert/0" (DERCert.mk [] [] "") false 0] 1).1
      ≠ App.mk "a1" "r1" Status.valid
          [Requirement.mk "authorization" Status.valid "B/authz/z1"] (some "B/cert/0") := by
  decide

/-- C2 witness: a concrete pending Application with one valid requirement,
via `application_issuance_gate`. -/
theorem application_issuance_gate_witness :
    (App.issueIfReady (fun _ => DERCert.mk [] [] "") "B"
        (App.mk "a1" "r1" Status.pending
          [Requirement.mk "authorization" Status.valid "B/authz/z1"] none)
        [] 0).1.requirements.all (fun req => req.status == Status.valid) = true
    ∧ ∃ u, (App.issueIfReady (fun _ => DERCert.mk [] [] "") "B"
        (App.mk "a1" "r1" Status.pending
          [Requirement.mk "authorization" Status.valid "B/authz/z1"] none)
        [] 0).1.certificate = some u
      ∧ ∃ c ∈ (App.issueIfReady (fun _ => DERCert.mk [] [] "") "B"
          (App.mk "a1" "r1" Status.pending
            [Requirement.mk "authorization" Status.valid "B/authz/z1"] none)
          [] 0).2.1, c.url = u :=
  application_issuance_gate.1 (fun _ => DERCert.mk [] [] "") "B"
    (App.mk "a1" "r1" Status.pending
      [Requirement.mk "authorization" Status.valid "B/authz/z1"] none)
    [] 0 (by decide) (by decide)

/-- C5: evaluating `changeKey` at a well-formed key-change request: the
request succeeds (200) and the Registration `key` field becomes the new JWK,
but `regByThumbprint` still resolves the OLD thumbprint (and not the new
one), and the `updateReg` account check still accepts the old key and
rejects the new one, because `changeKey` never updates the stored
`thumbprint` field the lookups use. -/
theorem changeKey_old_key_still_authorized :
    ((ServerDB.mk "B" [Reg.mk "r1" "tOld" "jwkOld" "B/reg/r1"] [] [] [] 0).changeKey
        "https://ex/kc" "jwkNew" "tNew"
        (some (InnerJWS.mk "tOld" "https://ex/kc" "tOld" "tNew" "B/reg/r1"))).2 = some 200
    ∧ (((ServerDB.mk "B" [Reg.mk "r1" "tOld" "jwkOld" "B/reg/r1"] [] [] [] 0).changeKey
        "https://ex/kc" "jwkNew" "tNew"
        (some (InnerJWS.mk "tOld" "https://ex/kc" "tOld" "tNew" "B/reg/r1"))).1.regByThumbprint
        "tOld") = some (Reg.mk "r1" "tOld" "jwkNew" "B/reg/r1")
    ∧ (((ServerDB.mk "B" [Reg.mk "r1" "tOld" "jwkOld" "B/reg/r1"] [] [] [] 0).changeKey
        "https://ex/kc" "jwkNew" "tNew"
        (some (InnerJWS.mk "tOld" "https://ex/kc" "tOld" "tNew" "B/reg/r1"))).1.regByThumbprint
        "tNew") = none
    ∧ ((ServerDB.mk "B" [Reg.mk "r1" "tOld" "jwkOld" "B/reg/r1"] [] [] [] 0).changeKey
        "https://ex/kc" "jwkNew" "tNew"
        (some (InnerJWS.mk "tOld" "https://ex/kc" "tOld" "tNew" "B/reg/r1"))).1.updateRegAuthorized
        "r1" "tOld" = true
    ∧ ((ServerDB.mk "B" [Reg.mk "r1" "tOld" "jwkOld" "B/reg/r1"] [] [] [] 0).changeKey
        "https://ex/kc" "jwkNew" "tNew"
        (some (InnerJWS.mk "tOld" "https://ex/kc" "tOld" "tNew" "B/reg/r1"))).1.updateRegAuthorized
        "r1" "tNew" = false := by decide

/-- C6: evaluating `revokeCert` for a submitter (account B) that owns an
Authorization for every SAN of the certificate: `authorizedFor` keyed by the
Registration id says B is authorized, yet the handler responds 403 and
leaves the Certificate unrevoked, because it passes the submitter thumbprint
where `authorizedFor` expects a Registration id. -/
theorem revokeCert_san_authorized_rejected :
    (ServerDB.mk "B"
        [Reg.mk "rA" "tA" "kA" "B/reg/rA", Reg.mk "rB" "tB" "kB" "B/reg/rB"]
        [Authz.mk "z1" "rB" "B/authz/z1" "example.com" Status.valid 1000 [Chal.mk Status.valid]]
        [] [Cert.mk "c1" "rA" "B/cert/c1" (DERCert.mk [1, 2, 3] ["example.com"] "tCert") false 0]
        0).authorizedFor "rB" ["example.com"] = true
    ∧ ((ServerDB.mk "B"
        [Reg.mk "rA" "tA" "kA" "B/reg/rA", Reg.mk "rB" "tB" "kB" "B/reg/rB"]
        [Authz.mk "z1" "rB" "B/authz/z1" "example.com" Status.valid 1000 [Chal.mk Status.valid]]
        [] [Cert.mk "c1" "rA" "B/cert/c1" (DERCert.mk [1, 2, 3] ["example.com"] "tCert") false 0]
        0).revokeCert "tB" [1, 2, 3] (some 3)).2 = 403
    ∧ ((ServerDB.mk "B"
        [Reg.mk "rA" "tA" "kA" "B/reg/rA", Reg.mk "rB" "tB" "kB" "B/reg/rB"]
        [Authz.mk "z1" "rB" "B/authz/z1" "example.com" Status.valid 1000 [Chal.mk Status.valid]]
        [] [Cert.mk "c1" "rA" "B/cert/c1" (DERCert.mk [1, 2, 3] ["example.com"] "tCert") false 0]
        0).revokeCert "tB" [1, 2, 3] (some 3)).1.certs
      = [Cert.mk "c1" "rA" "B/cert/c1" (DERCert.mk [1, 2, 3] ["example.com"] "tCert") false 0] := by
  decide

/-- C7: the challenge object the server builds in the `Authorization`
constructor (`new challengeType()`, no arguments) has key authorization
`token + ".undefined"`, not `token + "." + thumbprint` as the claim states
and as the two-argument constructor produces. -/
theorem server_challenge_undefined_thumbprint :
    Authorization.mkChallengeObj "tok" =
      HTTP01Chal.mk Status.pending none "tok" "tok.undefined"
    ∧ (HTTP01Chal.construct (some "example.com") (some "TP") "tok").keyAuthPriv = "tok.TP"
    ∧ (Authorization.mkChallengeObj "tok").keyAuthPriv ≠
        (HTTP01Chal.construct (some "example.com") (some "TP") "tok").keyAuthPriv := by decide

/-- C9: evaluating the client `changeKey` with a rejected POST: the
transport signing key stays the NEW key; the restore in the catch handler
writes the old key to the unused `accountKey` field of the ACMEClient
instead of `client.accountKey`. -/
theorem client_changeKey_failure_keeps_new_key :
    ACMEClient.changeKey
        (ClientState.mk "oldK" none (some "B/reg/r1") (some "B/key-change"))
        (some "newK") false =
      (ClientState.mk "newK" (some "oldK") (some "B/reg/r1") (some "B/key-change"), false) := by
  decide

/-- C8 counterexample: a POST whose response is rateLimited, retried into
a second rateLimited response, makes a third request (two retries), refuting
that the client retries exactly once more. -/
theorem post_retries_twice_on_double_rate_limit :
    (TransportClient.postRun 0
      [WireEvent.rejected 403 true rateLimitedURN RAHeader.invalid,
       WireEvent.rejected 403 true rateLimitedURN RAHeader.invalid,
       WireEvent.resolved]).attempts = 3
    ∧ (TransportClient.postRun 0
      [WireEvent.rejected 403 true rateLimitedURN RAHeader.invalid,
       WireEvent.rejected 403 true rateLimitedURN RAHeader.invalid,
       WireEvent.resolved]).outcome = some true := by decide

/-- C8 (amended): a rate-limited problem rejection makes the client sleep
`retryAfterDelay` milliseconds (500 when that computes to 0) and re-run the
POST against the remaining schedule, once per rate-limited response; a POST
whose retry is not rate-limited is retried exactly once; any non-rate-limited
event is never retried (one attempt, resolution or rethrow). -/
theorem post_rate_limit_retry_spec (now : Int) (e : WireEvent) (rest : List WireEvent) :
    (e.isRateLimited = true →
      TransportClient.postRun now (e :: rest) =
        PostTrace.mk ((TransportClient.postRun now rest).attempts + 1)
          ((if retryAfterDelay now e.ra == 0 then 500 else retryAfterDelay now e.ra)
            :: (TransportClient.postRun now rest).sleeps)
          (TransportClient.postRun now rest).outcome)
    ∧ (e.isRateLimited = false →
      TransportClient.postRun now (e :: rest) = PostTrace.mk 1 [] e.outcome)
    ∧ (∀ e2, e.isRateLimited = true → e2.isRateLimited = false →
      (TransportClient.postRun now [e, e2]).attempts = 2
      ∧ (TransportClient.postRun now [e, e2]).outcome = e2.outcome) := by
  refine ⟨?_, ?_, ?_⟩
  · intro h
    cases e with
    | resolved => exact absurd h (by decide)
    | netFailure => exact absurd h (by decide)
    | rejected sc ct bt ra =>
      simp only [TransportClient.postRun]
      rw [if_pos (by simpa [WireEvent.isRateLimited] using h)]
  · intro h
    cases e with
    | resolved =>
      simp only [TransportClient.postRun]
      rw [if_neg (by simp [WireEvent.isRateLimited])]
    | netFailure =>
      simp only [TransportClient.postRun]
      rw [if_neg (by simp [WireEvent.isRateLimited])]
    | rejected sc ct bt ra =>
      simp only [TransportClient.postRun]
      rw [if_neg (by simpa [WireEvent.isRateLimited] using h)]
  · intro e2 h1 h2
    cases e with
    | resolved => exact absurd h1 (by decide)
    | netFailure => exact absurd h1 (by decide)
    | rejected sc ct bt ra =>
      constructor
      · simp only [TransportClient.postRun]
        rw [if_pos (by simpa [WireEvent.isRateLimited] using h1),
          if_neg (by simpa [WireEvent.isRateLimited] using h2)]
      · simp only [TransportClient.postRun]
        rw [if_pos (by simpa [WireEvent.isRateLimited] using h1),
          if_neg (by simpa [WireEvent.isRateLimited] using h2)]

/-- C8 witness: one rate-limited response with Retry-After 2 followed by a
success gives exactly two attempts and a 2000 ms sleep, via
`post_rate_limit_retry_spec`. -/
theorem post_rate_limit_retry_spec_witness :
    TransportClient.postRun 0
      [WireEvent.rejected 403 true rateLimitedURN (RAHeader.intSeconds 2),
       WireEvent.resolved] = PostTrace.mk 2 [2000] (some true) := by
  have h := (post_rate_limit_retry_spec 0
    (WireEvent.rejected 403 true rateLimitedURN (RAHeader.intSeconds 2))
    [WireEvent.resolved]).1 (by decide)
  rw [h]
  decide


/-- C10 (amended): the GET challenge handler responds 404 when the
Authorization id is unknown, when `parseInt` of the index segment yields
`NaN`, or when the parsed index is out of the challenges array bounds, and
any 200 response carries an element of the challenges array (no
out-of-bounds access); for the POST handler any 200 response likewise
carries an element of the array, and the ownership (401) and
no-longer-pending (403) checks precede the index check.  (The original
claim that every non-decimal index yields 404 is refuted by
`fetchChallenge_accepts_nonnumeric_index`.) -/
theorem challenge_index_handling (db : ServerDB) (now : Int) (id s : String) :
    (db.getAuthz id = none → db.fetchChallenge now id s = ChalResp.notFound)
    ∧ (jsParseInt s = none → db.fetchChallenge now id s = ChalResp.notFound)
    ∧ (∀ az i, db.getAuthz id = some az → jsParseInt s = some i →
        ¬(0 ≤ i ∧ i.toNat < az.challenges.length) →
        db.fetchChallenge now id s = ChalResp.notFound)
    ∧ (∀ c, db.fetchChallenge now id s = ChalResp.ok c →
        ∃ az i, db.getAuthz id = some az ∧ jsParseInt s = some i ∧
          0 ≤ i ∧ i.toNat < az.challenges.length ∧ c ∈ (az.update now).challenges)
    ∧ (∀ thumb st c, db.updateAuthzChallenge now thumb id s st = ChalResp.ok c →
        ∃ az i, db.getAuthz id = some az ∧ az.status = Status.pending ∧
          jsParseInt s = some i ∧ 0 ≤ i ∧ i.toNat < az.challenges.length ∧
          c ∈ ((az.setChal i.toNat st).update now).challenges)
    ∧ (∀ thumb st az reg, db.getAuthz id = some az →
        db.regByThumbprint thumb = some reg → reg.id = az.regID →
        az.status ≠ Status.pending →
        db.updateAuthzChallenge now thumb id s st = ChalResp.forbidden) := by
  refine ⟨?_, ?_, ?_, ?_, ?_, ?_⟩
  · intro h
    simp only [ServerDB.fetchChallenge, h]
  · intro h
    cases haz : db.getAuthz id with
    | none => simp only [ServerDB.fetchChallenge, haz]
    | some az => simp only [ServerDB.fetchChallenge, haz, h]
  · intro az i haz hi hnb
    simp only [ServerDB.fetchChallenge, haz, hi]
    rw [dif_neg hnb]
  · intro c h
    simp only [ServerDB.fetchChallenge] at h
    split at h
    · exact absurd h (by simp)
    · rename_i az haz
      split at h
      · exact absurd h (by simp)
      · rename_i i hi
        split at h
        · rename_i hb
          refine ⟨az, i, haz, hi, hb.1, hb.2, ?_⟩
          injection h with h2
          rw [← h2]
          exact List.get_mem _ _ _
        · exact absurd h (by simp)
  · intro thumb st c h
    simp only [ServerDB.updateAuthzChallenge] at h
    split at h
    · exact absurd h (by simp)
    · rename_i az haz
      split at h
      · exact absurd h (by simp)
      · rename_i reg hreg
        split at h
        · exact absurd h (by simp)
        · rename_i hid
          split at h
          · exact absurd h (by simp)
          · rename_i hp
            have hpend : az.status = Status.pending := by
              simpa using hp
            split at h
            · exact absurd h (by simp)
            · rename_i i hi
              split at h
              · rename_i hb
                refine ⟨az, i, haz, hpend, hi, hb.1, hb.2, ?_⟩
                injection h with h2
                rw [← h2]
                exact List.get_mem _ _ _
              · exact absurd h (by simp)
  · intro thumb st az reg haz hreg hid hp
    simp only [ServerDB.updateAuthzChallenge, haz, hreg]
    rw [if_neg (by simp [hid]), if_pos (by simpa using hp)]

/-- C10 witness: a concrete non-numeric index gives 404 on a stored
Authorization, via `challenge_index_handling`. -/
theorem challenge_index_handling_witness :
    (ServerDB.mk "B" [] [Authz.mk "A" "r1" "B/authz/A" "example.com" Status.pending 1000
        [Chal.mk Status.pending]] [] [] 0).fetchChallenge 0 "A" "zzz" = ChalResp.notFound :=
  ((challenge_index_handling (ServerDB.mk "B" []
      [Authz.mk "A" "r1" "B/authz/A" "example.com" Status.pending 1000
        [Chal.mk Status.pending]] [] [] 0) 0 "A" "zzz").2.1 (by decide))

/-- C10 counterexample: the index segment "1x" is not a decimal number,
yet `parseInt` reads its prefix 1 and the handler responds 200 with the
second challenge instead of 404. -/
theorem fetchChallenge_accepts_nonnumeric_index :
    (ServerDB.mk "B" [] [Authz.mk "A" "r1" "B/authz/A" "example.com" Status.pending 1000
        [Chal.mk Status.pending, Chal.mk Status.invalid]] [] [] 0).fetchChallenge 0 "A" "1x"
      = ChalResp.ok (Chal.mk Status.invalid) := by decide

end RocketSkates
